import Mathlib

/-!
Verification of the guardis runtime type-guard library.

The development shallowly embeds the TypeScript sources
(`src/guardis/src/guard.ts`, `src/guardis/src/modules/http.ts`,
the `batch`/`extend` registry builders and the PascalCase helper)
into Lean.  JavaScript runtime values are modelled by `JSValue`,
parsers by `JSValue → Option JSValue` (the source's `null` failure
sentinel becomes `Option.none`), and the strict/assert forms by
`Except String Bool` (a thrown `TypeError` message becomes
`Except.error`).

Modelling notes, recorded once here:
* IEEE-754 doubles are modelled by `JSNum` (NaN, the two infinities
  and finite values as exact rationals).  No claim depends on float
  rounding.
* The helper bundle (`hasProperty`/`hasOptionalProperty`/`tupleHas`/
  `includes`) that `createTypeGuard` threads into every parser call
  is a fixed record of pure functions; no claim under study inspects
  it, so parsers are embedded as one-argument functions.
* Unicode character classes used by the word-splitting regexes are
  modelled at the ASCII level (all names in the claims are ASCII).
-/

/-- An exact fraction `num / den` (`den` is always positive in every
value this development constructs).  Kept unnormalized; every
observation made of it (truthiness, comparisons, printing) is
value-based, so normalization is unnecessary. -/
structure JSFrac where
  num : Int
  den : Nat
  deriving DecidableEq, Repr

/-- JavaScript numbers: NaN, the infinities, and finite values
(modelled as exact fractions; claims never depend on double rounding). -/
inductive JSNum where
  | nan
  | inf
  | negInf
  | fin (q : JSFrac)
  deriving DecidableEq, Repr

/-- Value equality of a fraction with an integer (JS `===` on numbers). -/
def JSFrac.eqInt (f : JSFrac) (k : Int) : Bool :=
  f.num == k * f.den

/-- A JavaScript runtime value.  `obj` carries the list of own
enumerable string-keyed properties plus whether its prototype is
exactly `Object.prototype` (`plainProto`); `arr` is an array;
`date` a `Date` instance; `func` an opaque function value. -/
inductive JSValue where
  | null
  | undef
  | bool (b : Bool)
  | num (n : JSNum)
  | str (s : String)
  | arr (elems : List JSValue)
  | obj (fields : List (String × JSValue)) (plainProto : Bool)
  | date (time : Int)
  | func (id : Nat)

/-- `typeof` of a value, as the string the JS operator yields. -/
def jsTypeof : JSValue → String
  | .null => "object"
  | .undef => "undefined"
  | .bool _ => "boolean"
  | .num _ => "number"
  | .str _ => "string"
  | .arr _ => "object"
  | .obj _ _ => "object"
  | .date _ => "object"
  | .func _ => "function"

/-- Truthiness of a `JSNum` (`0` and `NaN` are falsy). -/
def numTruthy : JSNum → Bool
  | .nan => false
  | .inf => true
  | .negInf => true
  | .fin q => q.num != 0

/-- JavaScript truthiness. -/
def isTruthy : JSValue → Bool
  | .null => false
  | .undef => false
  | .bool b => b
  | .num n => numTruthy n
  | .str s => s != ""
  | .arr _ => true
  | .obj _ _ => true
  | .date _ => true
  | .func _ => true

/-- `Array.isArray`. -/
def jsIsArray : JSValue → Bool
  | .arr _ => true
  | _ => false

/-- Whether `Object.getPrototypeOf(v) === Object.prototype`.  Arrays,
dates and functions have other prototypes; primitives are never asked. -/
def protoIsObjectProto : JSValue → Bool
  | .obj _ p => p
  | _ => false

/-- `Object.keys(v).length`: the number of own enumerable keys. -/
def jsOwnKeyCount : JSValue → Nat
  | .obj fs _ => fs.length
  | .arr xs => xs.length
  | _ => 0

/-- `Object.values(v)` for the object case used by `isJsonObject`. -/
def jsOwnValues : JSValue → List JSValue
  | .obj fs _ => fs.map Prod.snd
  | .arr xs => xs
  | _ => []

/-- Numeric value of a digit string (the characters must be `0`-`9`). -/
def digitsVal (l : List Char) : Nat :=
  l.foldl (fun n c => n * 10 + (c.toNat - '0'.toNat)) 0

/-- Decimal rendering of a fraction: exact for integers, and for
fractions printed to at most 20 digits (JS prints the shortest
round-tripping double; no claim reaches the non-integer case). -/
def fracToString (f : JSFrac) : String :=
  if f.den = 1 then toString f.num
  else
    let sign := if f.num < 0 then "-" else ""
    let a := f.num.natAbs
    let ip := a / f.den
    let rem := a % f.den
    let frac20 := rem * 10 ^ 20 / f.den
    let fracDigits := Nat.repr frac20
    let padded := String.mk (List.replicate (20 - fracDigits.length) '0') ++ fracDigits
    let trimmed := String.mk (padded.data.reverse.dropWhile (· = '0')).reverse
    sign ++ Nat.repr ip ++ "." ++ trimmed

/-- `Number.prototype.toString` (radix 10). -/
def numToString : JSNum → String
  | .nan => "NaN"
  | .inf => "Infinity"
  | .negInf => "-Infinity"
  | .fin q => fracToString q

/-- Fuelled JS `ToString` on values; the fuel only serves Lean's
termination checker for the array case and is always sufficient when
called through `jsToString`.  Plain objects stringify to
`[object Object]`; the exact texts produced for dates and functions
are irrelevant to every claim (they never match a numeral pattern,
like their JS counterparts). -/
def jsToStringFuel : Nat → JSValue → String
  | _, .null => "null"
  | _, .undef => "undefined"
  | _, .bool b => if b then "true" else "false"
  | _, .num n => numToString n
  | _, .str s => s
  | 0, .arr _ => ""
  | fuel + 1, .arr xs =>
    String.intercalate ","
      (xs.map (fun e =>
        match e with
        | .null => ""
        | .undef => ""
        | e => jsToStringFuel fuel e))
  | _, .obj _ _ => "[object Object]"
  | _, .date t => "[Date " ++ toString t ++ "]"
  | _, .func id => "[Function " ++ toString id ++ "]"

mutual
/-- Structural size of a value; it bounds the array nesting depth and
is used to pick a sufficient fuel. -/
def jsSize : JSValue → Nat
  | .arr xs => 1 + jsSizeList xs
  | .obj fs _ => 1 + jsSizeFields fs
  | _ => 1

/-- Size of a list of values. -/
def jsSizeList : List JSValue → Nat
  | [] => 0
  | v :: rest => jsSize v + jsSizeList rest

/-- Size of an object's field list. -/
def jsSizeFields : List (String × JSValue) → Nat
  | [] => 0
  | (_, v) :: rest => jsSize v + jsSizeFields rest
end

/-- JS `ToString` coercion (`jsSize` bounds the array nesting depth,
so the fuel never runs out). -/
def jsToString (v : JSValue) : String := jsToStringFuel (jsSize v) v

/-- A parser as in `guard.ts`: takes a value and returns the narrowed
value or the `null` failure sentinel (here `Option.none`). -/
def Parser : Type := JSValue → Option JSValue

/-- The decorated guard produced by `createTypeGuard`; its behaviour is
entirely determined by the underlying parser (`callback._.parser`). -/
structure Guard where
  parser : Parser

/-- `createTypeGuard`: wraps a parser into a guard. -/
def createTypeGuard (parse : Parser) : Guard := ⟨parse⟩

/-- The plain callable form: `parse(value, helpers) !== null`. -/
def Guard.call (g : Guard) (value : JSValue) : Bool :=
  (g.parser value).isSome

/-- Default message of `createStrictTypeGuard`. -/
def defaultStrictMsg (parseName : String) : String :=
  "Type guard failed. Parser " ++ parseName ++ " returned null."

/-- `createStrictTypeGuard`: checks the predicate and throws a
`TypeError` (modelled as `Except.error` carrying the message) when it
fails, otherwise returns `true`. -/
def createStrictTypeGuard (parse : JSValue → Bool) (parseName : String)
    (value : JSValue) (errorMsg : Option String) : Except String Bool :=
  if !(parse value) then
    Except.error (errorMsg.getD (defaultStrictMsg parseName))
  else
    Except.ok true

/-- `callback.strict = createStrictTypeGuard(callback)`. -/
def Guard.strict (g : Guard) (value : JSValue) (errorMsg : Option String) :
    Except String Bool :=
  createStrictTypeGuard g.call "callback" value errorMsg

/-- `callback.or`: the union guard; the left parser runs first and its
non-failure result is returned, otherwise the right parser decides. -/
def Guard.or (g : Guard) (other : Guard) : Guard :=
  createTypeGuard (fun v =>
    match g.parser v with
    | some r1 => some r1
    | none => other.parser v)

/-- `isBoolean`. -/
def isBoolean : Guard :=
  createTypeGuard (fun t => if jsTypeof t == "boolean" then some t else none)

/-- `isString`. -/
def isString : Guard :=
  createTypeGuard (fun t => if jsTypeof t == "string" then some t else none)

/-- `isNumber`. -/
def isNumber : Guard :=
  createTypeGuard (fun t => if jsTypeof t == "number" then some t else none)

/-- `isUndefined`. -/
def isUndefined : Guard :=
  createTypeGuard (fun t => if jsTypeof t == "undefined" then some t else none)

/-- `isNull`: its parser returns `true` (the boolean) for `null`,
working around the library's `null`-as-failure sentinel. -/
def isNull : Guard :=
  createTypeGuard (fun t =>
    match t with
    | .null => some (.bool true)
    | _ => none)

/-- `isFunction`. -/
def isFunction : Guard :=
  createTypeGuard (fun t => if jsTypeof t == "function" then some t else none)

/-- `optional`: `isUndefined(value) || callback(value)`. -/
def Guard.optional (g : Guard) (value : JSValue) : Bool :=
  isUndefined.call value || g.call value

/-- `optional.strict`. -/
def Guard.optionalStrict (g : Guard) (value : JSValue) (errorMsg : Option String) :
    Except String Bool :=
  createStrictTypeGuard g.optional "optional" value errorMsg

/-- `isBinary`: `t === 1 || t === 0`. -/
def isBinary : Guard :=
  createTypeGuard (fun t =>
    match t with
    | .num (.fin q) => if q.eqInt 1 || q.eqInt 0 then some t else none
    | _ => none)

/-- The test of `/^-?\d*\.?\d+$/` on the body after an optional minus
sign: a digit run, optionally preceded by `digits.`. -/
def matchesNumeralBody (body : List Char) : Bool :=
  let intPart := body.takeWhile Char.isDigit
  let rest := body.drop intPart.length
  if rest.isEmpty then !intPart.isEmpty
  else if rest.head? = some '.' then
    !rest.tail.isEmpty && rest.tail.all Char.isDigit
  else false

/-- `/^-?\d*\.?\d+$/.test(s)`. -/
def numericRegexTest (s : String) : Bool :=
  matchesNumeralBody (if s.data.head? = some '-' then s.data.tail else s.data)

/-- `parseInt(s)` with the default radix: optional whitespace and sign,
then the leading digit run (`NaN` when there is none).  Hexadecimal
prefixes cannot occur here because every call site pre-validates the
string against the numeral regex. -/
def jsParseInt (s : String) : JSNum :=
  let l := s.data.dropWhile Char.isWhitespace
  let sign : Int := if l.head? = some '-' then -1 else 1
  let body := if l.head? = some '-' ∨ l.head? = some '+' then l.tail else l
  let ds := body.takeWhile Char.isDigit
  if ds.isEmpty then .nan else .fin ⟨sign * (digitsVal ds : Int), 1⟩

/-- `parseFloat(s)`: optional whitespace and sign, integer digits,
then an optional `.` and fraction digits (`NaN` when no digit at all).
Exponent forms cannot occur here (pre-validated by the numeral regex). -/
def jsParseFloat (s : String) : JSNum :=
  let l := s.data.dropWhile Char.isWhitespace
  let sign : Int := if l.head? = some '-' then -1 else 1
  let body := if l.head? = some '-' ∨ l.head? = some '+' then l.tail else l
  let ipart := body.takeWhile Char.isDigit
  let rest := body.drop ipart.length
  let fpart := if rest.head? = some '.' then rest.tail.takeWhile Char.isDigit else []
  if ipart.isEmpty && fpart.isEmpty then .nan
  else
    .fin ⟨sign * ((digitsVal ipart * 10 ^ fpart.length + digitsVal fpart : Nat) : Int),
      10 ^ fpart.length⟩

/-- `isNaN(_t)` for an already numeric `_t`. -/
def numIsNaN : JSNum → Bool
  | .nan => true
  | _ => false

/-- `isNumeric`: a genuine number, or a string whose `ToString` image
matches the numeral regex and whose `parseInt(t) || parseFloat(t)`
value is a non-NaN number. -/
def isNumeric : Guard :=
  createTypeGuard (fun t =>
    if isNumber.call t then some t
    else if !(numericRegexTest (jsToString t)) then none
    else
      let tParsed :=
        if numTruthy (jsParseInt (jsToString t)) then jsParseInt (jsToString t)
        else jsParseFloat (jsToString t)
      if !(numIsNaN tParsed) && isNumber.call (.num tParsed) then some t else none)

/-- `isJsonPrimitive`: `(isBoolean(t) || isString(t) || isNumber(t) ||
isNull(t)) || null`; on success the parser yields the boolean `true`. -/
def isJsonPrimitive : Guard :=
  createTypeGuard (fun t =>
    if isBoolean.call t || isString.call t || isNumber.call t || isNull.call t then
      some (.bool true)
    else none)

/-- `isObject`: truthy, `typeof t === "object"` and not an array. -/
def isObject : Guard :=
  createTypeGuard (fun t =>
    if isTruthy t && jsTypeof t == "object" && !(jsIsArray t) then some t else none)

/-- `isArray`. -/
def isArray : Guard :=
  createTypeGuard (fun t => if jsIsArray t then some t else none)

/-- `isJsonArray`: the parser is exactly `Array.isArray(t) ? t : null` —
the members are NOT examined. -/
def isJsonArray : Guard :=
  createTypeGuard (fun t => if jsIsArray t then some t else none)

/-- Boolean form of `isJsonPrimitive`. -/
def isJsonPrimitiveB (t : JSValue) : Bool :=
  isBoolean.call t || isString.call t || isNumber.call t || isNull.call t

/-- Fuelled mutual recursion of `isJsonObject`/`isJsonValue`: a plain
object (prototype exactly `Object.prototype`) all of whose own values
are JSON values, where a JSON value is a JSON primitive, any array
(`isJsonArray` is shallow), or recursively a JSON object.  The fuel
only serves the termination checker; `jsSize` always suffices. -/
def isJsonObjectFuel : Nat → JSValue → Bool
  | 0, _ => false
  | fuel + 1, t =>
    match t with
    | .obj fs true =>
      fs.all (fun e => isJsonPrimitiveB e.2 || jsIsArray e.2 || isJsonObjectFuel fuel e.2)
    | _ => false

/-- `isJsonObject`. -/
def isJsonObject : Guard :=
  createTypeGuard (fun t => if isJsonObjectFuel (jsSize t) t then some t else none)

/-- `isJsonValue`: a JSON primitive, array or object; the parser
returns `t ?? true` (nullish values coalesce to the boolean `true`). -/
def isJsonValue : Guard :=
  createTypeGuard (fun t =>
    if isJsonPrimitiveB t || isJsonArray.call t || isJsonObject.call t then
      some (match t with
        | .null => .bool true
        | .undef => .bool true
        | _ => t)
    else none)

/-- `isDate`: `t instanceof Date`. -/
def isDate : Guard :=
  createTypeGuard (fun t =>
    match t with
    | .date _ => some t
    | _ => none)

/-- `isNil = isNull.or(isUndefined)`. -/
def isNil : Guard := isNull.or isUndefined

/-- `isEmptyRecord`: truthy object whose prototype is exactly
`Object.prototype` and that has zero own enumerable keys. -/
def isEmptyRecord : Guard :=
  createTypeGuard (fun t =>
    if isTruthy t && jsTypeof t == "object" && protoIsObjectProto t
        && jsOwnKeyCount t == 0 then
      some t
    else none)

/-- `isEmptyArray`. -/
def isEmptyArray : Guard :=
  createTypeGuard (fun t =>
    match t with
    | .arr xs => if xs.length == 0 then some t else none
    | _ => none)

/-- `isEmptyString`: `t === ""`. -/
def isEmptyString : Guard :=
  createTypeGuard (fun t =>
    match t with
    | .str s => if s == "" then some t else none
    | _ => none)

/-- `isEmpty = isNull.or(isUndefined).or(isEmptyString).or(isEmptyArray).or(isEmptyRecord)`. -/
def isEmpty : Guard :=
  (((isNull.or isUndefined).or isEmptyString).or isEmptyArray).or isEmptyRecord

/-- `isIterable`: an object with `Symbol.iterator`.  Of the modelled
value kinds, exactly arrays qualify (plain objects carry no symbol
keys in the model, and `typeof` rules out strings and functions). -/
def isIterable : Guard :=
  createTypeGuard (fun t =>
    match t with
    | .arr _ => some t
    | _ => none)

/-- `notEmpty`: `!isEmpty(value) && callback(value)`. -/
def Guard.notEmpty (g : Guard) (value : JSValue) : Bool :=
  !(isEmpty.call value) && g.call value

/-- `notEmpty.strict`. -/
def Guard.notEmptyStrict (g : Guard) (value : JSValue) (errorMsg : Option String) :
    Except String Bool :=
  createStrictTypeGuard g.notEmpty "notEmpty" value errorMsg

/-- Length of a match of `\p{Lu}\p{Ll}+` (a capitalized word) at the
start of the input, if any. -/
def capWordLen : List Char → Option Nat
  | [] => none
  | c :: rest =>
    if c.isUpper then
      let k := (rest.takeWhile Char.isLower).length
      if k == 0 then none else some (k + 1)
    else none

/-- The lookahead `(?=(\p{Lu}\p{Ll})|\P{L}|\b)` of the acronym
pattern, tested right after the matched uppercase run (whose last
character is a word character, fixing the `\b` case). -/
def acronymLook : List Char → Bool
  | [] => true
  | [c] => !c.isAlpha
  | c1 :: c2 :: _ => !c1.isAlpha || (c1.isUpper && c2.isLower)

/-- Backtracking search for `\p{Lu}+(?=...)`: try the greedy uppercase
run first, then shorter ones. -/
def acronymLenFrom (s : List Char) : Nat → Option Nat
  | 0 => none
  | k + 1 =>
    if acronymLook (s.drop (k + 1)) then some (k + 1) else acronymLenFrom s k

/-- Length of a match of the acronym pattern at the start of the input. -/
def acronymLen (s : List Char) : Option Nat :=
  acronymLenFrom s (s.takeWhile Char.isUpper).length

/-- Length of a match of `\p{Ll}+` at the start of the input. -/
def lowerWordLen (s : List Char) : Option Nat :=
  let k := (s.takeWhile Char.isLower).length
  if k == 0 then none else some k

/-- Length of a match of `\p{L}+` at the start of the input. -/
def anyLettersLen (s : List Char) : Option Nat :=
  let k := (s.takeWhile Char.isAlpha).length
  if k == 0 then none else some k

/-- Length of a match of `\p{N}+` at the start of the input. -/
def digitsLen (s : List Char) : Option Nat :=
  let k := (s.takeWhile Char.isDigit).length
  if k == 0 then none else some k

/-- One attempt of `WORD_OR_NUMBER_REGEXP` at the current position:
the five alternatives are tried in the source's order. -/
def matchLenAt (s : List Char) : Option Nat :=
  (capWordLen s).orElse (fun _ =>
    (acronymLen s).orElse (fun _ =>
      (lowerWordLen s).orElse (fun _ =>
        (anyLettersLen s).orElse (fun _ => digitsLen s))))

/-- Global regex scan: at each position try `matchLenAt`; on a match
record it and continue after it, otherwise advance one character.
Every alternative matches at least one character, so a fuel of the
input length is always sufficient. -/
def scanWordsFuel : Nat → List Char → List (List Char)
  | 0, _ => []
  | _ + 1, [] => []
  | fuel + 1, c :: rest =>
    match matchLenAt (c :: rest) with
    | some k => (c :: rest).take k :: scanWordsFuel fuel ((c :: rest).drop k)
    | none => scanWordsFuel fuel rest

/-- `splitToWords`: `input.match(WORD_OR_NUMBER_REGEXP) ?? []`. -/
def splitToWords (input : String) : List String :=
  (scanWordsFuel input.data.length input.data).map String.mk

/-- `capitalizeWord`: first character uppercased, rest lowercased. -/
def capitalizeWord (word : String) : String :=
  match word.data with
  | [] => word
  | c :: rest => String.mk (c.toUpper :: rest.map Char.toLower)

/-- `String.prototype.trim`: strip whitespace from both ends. -/
def jsTrim (s : String) : String :=
  String.mk (((s.data.dropWhile Char.isWhitespace).reverse.dropWhile Char.isWhitespace).reverse)

/-- `toPascalCase`: trim, split to words, capitalize each, join. -/
def toPascalCase (input : String) : String :=
  String.join ((splitToWords (jsTrim input)).map capitalizeWord)

/-- `batch`: one guard per entry, bound under `is<PascalCase(name)>`. -/
def batch (config : List (String × Parser)) : List (String × Guard) :=
  config.map (fun e => ("is" ++ toPascalCase e.1, createTypeGuard e.2))

/-- A registry ("Is" dictionary): a JS object mapping names to guards,
modelled as an association list in key insertion order. -/
def Registry : Type := List (String × Guard)

/-- Property lookup on a JS-object model (first matching key). -/
def recLookup {α : Type} : List (String × α) → String → Option α
  | [], _ => none
  | e :: rest, k => if e.1 == k then some e.2 else recLookup rest k

/-- The object spread `{ ...a, ...b }`: `a`'s keys first (with `b`'s
value on collision), then `b`'s new keys; `b` wins on collision. -/
def spreadPair {α : Type} (a b : List (String × α)) : List (String × α) :=
  a.map (fun e =>
    match recLookup b e.1 with
    | some v => (e.1, v)
    | none => e)
  ++ b.filter (fun e => (recLookup a e.1).isNone)

/-- The built-in `Is` catalogue assembled in `mod.ts`, in its key
order.  The `Tuple` entry is omitted: `isTuple` takes an extra length
argument and is not a unary guard, and no claim touches it. -/
def builtinIs : Registry :=
  [("Boolean", isBoolean), ("String", isString), ("Number", isNumber),
   ("Binary", isBinary), ("Numeric", isNumeric), ("Function", isFunction),
   ("Object", isObject), ("Undefined", isUndefined), ("Array", isArray),
   ("JsonPrimitive", isJsonPrimitive), ("JsonArray", isJsonArray),
   ("JsonObject", isJsonObject), ("JsonValue", isJsonValue),
   ("Null", isNull), ("Nil", isNil), ("Empty", isEmpty),
   ("Iterable", isIterable), ("Date", isDate)]

/-- `extend`: build a guard for every supplied parser and merge with
the prior registry (the built-in catalogue when none is supplied) via
`{ ...Object.fromEntries(entries), ...(is ?? Is) }`. -/
def extend (is : Option Registry) (config : List (String × Parser)) : Registry :=
  let entries := config.map (fun e => (e.1, createTypeGuard e.2))
  spreadPair entries (is.getD builtinIs)

/-- `num >= 0` on a `JSNum` against an integer bound (NaN compares false). -/
def numGeInt (n : JSNum) (k : Int) : Bool :=
  match n with
  | .nan => false
  | .inf => true
  | .negInf => false
  | .fin f => decide (k * f.den ≤ f.num)

/-- `num <= k` on a `JSNum` against an integer bound (NaN compares false). -/
def numLeInt (n : JSNum) (k : Int) : Bool :=
  match n with
  | .nan => false
  | .inf => false
  | .negInf => true
  | .fin f => decide (f.num ≤ k * f.den)

/-- Split a character list at every occurrence of the separator
(`"a.b".split(".")`-style; the empty input yields one empty part). -/
def splitOnChar (c : Char) : List Char → List (List Char)
  | [] => [[]]
  | x :: rest =>
    let r := splitOnChar c rest
    if x == c then [] :: r
    else
      match r with
      | [] => [[x]]
      | h :: t => (x :: h) :: t

/-- The per-octet check of `isIpv4`:
`num >= 0 && num <= 255 && octet === num.toString()`. -/
def octetOk (octet : String) : Bool :=
  let num := jsParseInt octet
  numGeInt num 0 && numLeInt num 255 && (octet == numToString num)

/-- Modelled from the spec: `IPV4_REGEX` lives in
`src/helpers/http.helpers.ts`, which is absent from the source tree.
Per the spec the guard requires "the dotted-quad pattern", i.e.
`^(\d{1,3})\.(\d{1,3})\.(\d{1,3})\.(\d{1,3})$`, whose four capture
groups (`match.slice(1)`) are the octet strings. -/
def ipv4MatchGroups (s : String) : Option (List String) :=
  let parts := (splitOnChar '.' s.data).map String.mk
  if parts.length == 4
      && parts.all (fun p =>
        decide (1 ≤ p.length) && decide (p.length ≤ 3) && p.data.all Char.isDigit) then
    some parts
  else none

/-- `isIpv4`: a string of length at most 15 matching the dotted-quad
pattern whose every octet passes `octetOk`. -/
def isIpv4 : Guard :=
  createTypeGuard (fun v =>
    match v with
    | .str s =>
      if s.length > 15 then none
      else
        match ipv4MatchGroups s with
        | some groups => if groups.all octetOk then some v else none
        | none => none
    | _ => none)

theorem isSome_boolIf (b : Bool) (a : JSValue) :
    (if b then some a else none).isSome = b := by
  cases b <;> rfl

theorem Guard.or_call (g h : Guard) (v : JSValue) :
    (g.or h).call v = (g.call v || h.call v) := by
  unfold Guard.or Guard.call createTypeGuard
  cases hp : g.parser v <;> simp [hp]

theorem isNull_call (v : JSValue) :
    isNull.call v = (match v with | .null => true | _ => false) := by
  cases v <;> rfl

theorem isUndefined_call (v : JSValue) :
    isUndefined.call v = (match v with | .undef => true | _ => false) := by
  cases v <;> rfl

theorem isEmptyString_call (v : JSValue) :
    isEmptyString.call v = (match v with | .str s => s == "" | _ => false) := by
  cases v <;> simp [isEmptyString, Guard.call, createTypeGuard, isSome_boolIf] <;>
    (try split <;> simp_all)

theorem isEmptyArray_call (v : JSValue) :
    isEmptyArray.call v = (match v with | .arr xs => xs.length == 0 | _ => false) := by
  cases v <;> simp [isEmptyArray, Guard.call, createTypeGuard, isSome_boolIf]

theorem isEmptyRecord_call (v : JSValue) :
    isEmptyRecord.call v
      = (match v with | .obj fs p => p && fs.length == 0 | _ => false) := by
  cases v <;>
    simp [isEmptyRecord, Guard.call, createTypeGuard, isSome_boolIf, isTruthy,
      jsTypeof, protoIsObjectProto, jsOwnKeyCount] <;>
    (try split <;> simp_all)

theorem isEmpty_call (v : JSValue) :
    isEmpty.call v
      = (isNull.call v || isUndefined.call v || isEmptyString.call v
          || isEmptyArray.call v || isEmptyRecord.call v) := by
  simp [isEmpty, Guard.or_call, Bool.or_assoc]

theorem string_data_mk (l : List Char) : (String.mk l).data = l := rfl

theorem string_eta (s : String) : String.mk s.data = s := rfl

theorem recLookup_append {α : Type} (l1 l2 : List (String × α)) (k : String) :
    recLookup (l1 ++ l2) k
      = (match recLookup l1 k with
        | some v => some v
        | none => recLookup l2 k) := by
  induction l1 with
  | nil => simp [recLookup]
  | cons e rest ih =>
    cases h : (e.1 == k) <;> simp [recLookup, h, ih]

theorem recLookup_patched {α : Type} (a b : List (String × α)) (k : String) :
    recLookup (a.map (fun e =>
      match recLookup b e.1 with
      | some v => (e.1, v)
      | none => e)) k
      = (match recLookup a k with
        | none => none
        | some v =>
          match recLookup b k with
          | some w => some w
          | none => some v) := by
  induction a with
  | nil => simp [recLookup]
  | cons e rest ih =>
    cases h : (e.1 == k)
    · cases hb : recLookup b e.1 <;> simp [recLookup, h, hb, ih]
    · have hk : e.1 = k := by simpa using h
      subst hk
      cases hb : recLookup b e.1 <;> simp [recLookup, hb]

theorem recLookup_filtered {α : Type} (a b : List (String × α)) (k : String) :
    recLookup (b.filter (fun e => (recLookup a e.1).isNone)) k
      = (match recLookup a k with
        | some _ => none
        | none => recLookup b k) := by
  induction b with
  | nil => cases h : recLookup a k <;> simp [recLookup, h]
  | cons e rest ih =>
    cases h : (e.1 == k)
    · cases ha : (recLookup a e.1).isNone <;>
        simp [List.filter_cons, recLookup, h, ha, ih]
    · have hk : e.1 = k := by simpa using h
      subst hk
      cases ha : recLookup a e.1 <;>
        simp [List.filter_cons, recLookup, ha, ih]

theorem recLookup_spreadPair {α : Type} (a b : List (String × α)) (k : String) :
    recLookup (spreadPair a b) k
      = (match recLookup b k with
        | some v => some v
        | none => recLookup a k) := by
  unfold spreadPair
  rw [recLookup_append, recLookup_patched, recLookup_filtered]
  cases ha : recLookup a k <;> cases hb : recLookup b k <;> simp

/-- C1: for every guard produced by `createTypeGuard` and every input,
`strict` throws — a runtime `TypeError` carrying the caller-supplied
message or the auto-generated default — exactly when the plain guard
returns `false`, and returns `true` otherwise. -/
theorem strict_plain_agreement (g : Guard) (v : JSValue) (errorMsg : Option String) :
    ((∃ e, g.strict v errorMsg = Except.error e) ↔ g.call v = false)
    ∧ (g.call v = false →
        g.strict v errorMsg = Except.error (errorMsg.getD (defaultStrictMsg "callback")))
    ∧ (g.call v = true → g.strict v errorMsg = Except.ok true) := by
  unfold Guard.strict createStrictTypeGuard
  cases h : g.call v <;> simp [h]

/-- Witness for C1 at concrete inputs: `isString.strict` returns
`true` on a string and throws the supplied message on `null`. -/
theorem strict_plain_agreement_witness :
    isString.strict (JSValue.str "a") none = Except.ok true
    ∧ isString.strict JSValue.null (some "boom") = Except.error "boom" := by
  constructor
  · exact (strict_plain_agreement isString (JSValue.str "a") none).2.2 rfl
  · exact (strict_plain_agreement isString JSValue.null (some "boom")).2.1 rfl

/-- C3: for every two guards and value, the union guard accepts
exactly when either side accepts, and whenever the left parser
succeeds its narrowed result is the union parser's result
(left-biased tie-break; the left parser runs first). -/
theorem or_acceptance_law (g1 g2 : Guard) (v : JSValue) :
    ((g1.or g2).call v = (g1.call v || g2.call v))
    ∧ (∀ r, g1.parser v = some r → (g1.or g2).parser v = some r) := by
  refine ⟨Guard.or_call g1 g2 v, ?_⟩
  intro r h
  simp [Guard.or, createTypeGuard, h]

/-- Witness for C3 at a concrete input: both `isString` and
`isString.or isString` narrow `"a"`, and the left result is returned. -/
theorem or_acceptance_law_witness :
    (isString.or isNumber).parser (JSValue.str "a") = some (JSValue.str "a") :=
  (or_acceptance_law isString isNumber (JSValue.str "a")).2 (JSValue.str "a") rfl

/-- C5: for every guard and value, `optional` accepts exactly
`undefined` and the values the plain guard accepts. -/
theorem optional_law (g : Guard) (v : JSValue) :
    g.optional v = true ↔ (v = JSValue.undef ∨ g.call v = true) := by
  cases v <;> simp [Guard.optional, isUndefined_call]

/-- C4: for every guard and value, `notEmpty` accepts exactly the
non-empty values the plain guard accepts, and `isEmpty` holds exactly
for `null`, `undefined`, `""`, a zero-length array, and a plain object
with zero own enumerable keys. -/
theorem notEmpty_law (g : Guard) (v : JSValue) :
    (g.notEmpty v = (!(isEmpty.call v) && g.call v))
    ∧ (isEmpty.call v = true ↔
        (v = JSValue.null ∨ v = JSValue.undef ∨ v = JSValue.str ""
          ∨ v = JSValue.arr [] ∨ v = JSValue.obj [] true)) := by
  refine ⟨rfl, ?_⟩
  rw [isEmpty_call]
  cases v <;>
    simp [isNull_call, isUndefined_call, isEmptyString_call, isEmptyArray_call,
      isEmptyRecord_call, List.length_eq_zero, and_comm]

/-- C10: a zero-key object whose prototype is not `Object.prototype`
is not classified as empty, so `notEmpty` agrees with the plain guard
on it; only zero-key objects with prototype exactly `Object.prototype`
are empty records. -/
theorem emptyRecord_prototype_edge (g : Guard) (fs : List (String × JSValue)) :
    isEmpty.call (JSValue.obj fs false) = false
    ∧ g.notEmpty (JSValue.obj fs false) = g.call (JSValue.obj fs false)
    ∧ (∀ v, isEmptyRecord.call v = true ↔ v = JSValue.obj [] true) := by
  have hempty : isEmpty.call (JSValue.obj fs false) = false := by
    rw [isEmpty_call]
    simp [isNull_call, isUndefined_call, isEmptyString_call, isEmptyArray_call,
      isEmptyRecord_call]
  refine ⟨hempty, ?_, ?_⟩
  · unfold Guard.notEmpty
    rw [hempty]
    simp
  · intro v
    rw [isEmptyRecord_call]
    cases v <;> simp [List.length_eq_zero, and_comm]

/-- C2: the JSON-family guards evaluated at the claimed inputs.  The
parser of `isJsonArray` is only `Array.isArray`, so an array whose
single member is a function is accepted by `isJsonArray`,
`isJsonValue`, and (nested inside an object) by `isJsonObject`, even
though a bare function member of an object is rejected. -/
theorem isJsonArray_shallow :
    isJsonArray.call (JSValue.arr [JSValue.func 0]) = true
    ∧ isJsonValue.call (JSValue.arr [JSValue.func 0]) = true
    ∧ isJsonObject.call (JSValue.obj [("a", JSValue.arr [JSValue.func 0])] true) = true
    ∧ isJsonValue.call (JSValue.func 0) = false
    ∧ isJsonObject.call (JSValue.obj [("a", JSValue.func 0)] true) = false := by
  refine ⟨by decide, by decide, by decide, by decide, by decide⟩

/-- C6: `isNumeric` evaluated at the claimed boundary inputs.  The
string cases and `Infinity` agree with the claim; `NaN` does not:
`typeof NaN === "number"`, so the `isNumber` fast path returns `NaN`,
which is not the `null` failure sentinel, and the guard yields `true`. -/
theorem isNumeric_boundary :
    isNumeric.call (JSValue.str "3.14") = true
    ∧ isNumeric.call (JSValue.str "abc") = false
    ∧ isNumeric.call (JSValue.str "") = false
    ∧ isNumeric.call (JSValue.num JSNum.nan) = true
    ∧ isNumeric.call (JSValue.num JSNum.inf) = true := by
  refine ⟨by decide, by decide, by decide, by decide, by decide⟩

/-- The inputs of C7's counterexample: a parser that rejects every
value and one that accepts every value. -/
def rejectAllParse : Parser := fun _ => none

/-- Companion parser for C7's counterexample. -/
def acceptAllParse : Parser := fun v => some v

/-- C7 counterexample: the claim predicts that the newly supplied
parser for `"A"` wins the key collision, so the returned registry's
guard for `"A"` would accept `null`; the code spreads the prior
registry last (`{ ...entries, ...is }`), so the prior rejecting guard
is returned and `null` is rejected. -/
theorem extend_precedence_counterexample :
    (recLookup
      (extend (some [("A", createTypeGuard rejectAllParse)]) [("A", acceptAllParse)])
      "A").map (fun g => g.call JSValue.null) = some false
    ∧ (createTypeGuard acceptAllParse).call JSValue.null = true := ⟨rfl, rfl⟩

/-- C7 (amended): `extend(R, M)` (and `extend(M)`, defaulting to the
built-in catalogue) returns a new registry whose lookup yields `R`'s
binding when the name exists in `R` and otherwise the guard freshly
built from `M` — i.e. every binding of `R` and every name of `M` is
present, with `R`'s bindings taking precedence on key collision; the
input registry value is left unmodified. -/
theorem extend_registry_merge (R : Registry) (M : List (String × Parser)) (k : String) :
    (recLookup (extend (some R) M) k
      = (match recLookup R k with
        | some g => some g
        | none => recLookup (M.map (fun e => (e.1, createTypeGuard e.2))) k))
    ∧ extend none M = extend (some builtinIs) M := by
  constructor
  · have h := recLookup_spreadPair (M.map (fun e => (e.1, createTypeGuard e.2))) R k
    cases hR : recLookup R k <;> rw [hR] at h <;> simpa [extend, hR] using h
  · rfl

/-- The scenario parser of C8: `v => v === "meatball" ? v : FAILURE`. -/
def meatballParse : Parser := fun v =>
  match v with
  | .str s => if s == "meatball" then some v else none
  | _ => none

/-- C8: `batch` binds one factory-built guard per entry under the
normalized key `is<PascalCase(name)>` whatever the input casing; in
particular `batch({Meatball: ...})` carries the key `isMeatball`,
whose guard accepts exactly the literal string `"meatball"`. -/
theorem batch_naming :
    (∀ config : List (String × Parser),
      (batch config).map Prod.fst = config.map (fun e => "is" ++ toPascalCase e.1))
    ∧ toPascalCase "Meatball" = "Meatball"
    ∧ toPascalCase "meatball" = "Meatball"
    ∧ toPascalCase "MEATBALL" = "Meatball"
    ∧ recLookup (batch [("Meatball", meatballParse)]) "isMeatball"
        = some (createTypeGuard meatballParse)
    ∧ (∀ v, (createTypeGuard meatballParse).call v = true ↔ v = JSValue.str "meatball") := by
  refine ⟨?_, by decide, by decide, by decide, rfl, ?_⟩
  · intro config
    simp [batch]
  · intro v
    cases v <;> simp [Guard.call, createTypeGuard, meatballParse, isSome_boolIf]

/-- A leading zero: more than one character and the first is `0`. -/
def hasLeadingZero (octet : String) : Bool :=
  decide (1 < octet.length) && (octet.data.head? == some '0')

theorem digit_not_whitespace (c : Char) (h : c.isDigit = true) : c.isWhitespace = false := by
  simp only [Char.isDigit, Bool.and_eq_true, decide_eq_true_eq] at h
  have h0 := h.1
  have e1 : c ≠ ' ' := fun he => by subst he; exact absurd h0 (by decide)
  have e2 : c ≠ '\t' := fun he => by subst he; exact absurd h0 (by decide)
  have e3 : c ≠ '\r' := fun he => by subst he; exact absurd h0 (by decide)
  have e4 : c ≠ '\n' := fun he => by subst he; exact absurd h0 (by decide)
  simp [Char.isWhitespace, e1, e2, e3, e4]

theorem digit_beq_char_false (c d : Char) (h : c.isDigit = true) (hd : d.isDigit = false) :
    (c == d) = false := by
  cases hb : (c == d)
  · rfl
  · exfalso
    have he : c = d := by simpa using hb
    subst he
    simp [h] at hd

theorem takeWhile_all_eq {p : Char → Bool} (l : List Char) (h : l.all p = true) :
    l.takeWhile p = l := by
  induction l with
  | nil => rfl
  | cons c rest ih =>
    simp only [List.all_cons, Bool.and_eq_true] at h
    simp [List.takeWhile_cons, h.1, ih h.2]

theorem dropWhile_head_false {p : Char → Bool} (c : Char) (rest : List Char)
    (h : p c = false) : (c :: rest).dropWhile p = c :: rest := by
  simp [List.dropWhile_cons, h]

theorem int_repr_ofNat (n : Nat) : toString ((n : Nat) : Int) = Nat.repr n := rfl

theorem jsParseInt_digits (c : Char) (rest : List Char)
    (hd : (c :: rest).all Char.isDigit = true) :
    jsParseInt (String.mk (c :: rest)) = JSNum.fin ⟨(digitsVal (c :: rest) : Int), 1⟩ := by
  have hall := hd
  simp only [List.all_cons, Bool.and_eq_true] at hall
  have hw : c.isWhitespace = false := digit_not_whitespace c hall.1
  have hdash : c ≠ '-' := by
    intro he
    subst he
    exact absurd hall.1 (by decide)
  have hplus : c ≠ '+' := by
    intro he
    subst he
    exact absurd hall.1 (by decide)
  simp only [jsParseInt, string_data_mk, dropWhile_head_false c rest hw, List.head?_cons]
  have hne1 : ¬(some c = some '-') := by simp [hdash]
  have hne2 : ¬(some c = some '-' ∨ some c = some '+') := by simp [hdash, hplus]
  rw [if_neg hne1, if_neg hne2, takeWhile_all_eq _ hd]
  simp

set_option maxRecDepth 8192 in
theorem repr_no_leading_zero : ∀ n : Nat, n < 256 → hasLeadingZero (Nat.repr n) = false := by
  decide

theorem octetOk_canonical (c : Char) (rest : List Char)
    (hd : (c :: rest).all Char.isDigit = true)
    (hok : octetOk (String.mk (c :: rest)) = true) :
    digitsVal (c :: rest) ≤ 255
    ∧ String.mk (c :: rest) = Nat.repr (digitsVal (c :: rest))
    ∧ hasLeadingZero (String.mk (c :: rest)) = false := by
  have hpi := jsParseInt_digits c rest hd
  have hnum : numToString (JSNum.fin ⟨(digitsVal (c :: rest) : Int), 1⟩)
      = toString ((digitsVal (c :: rest) : Int)) := by
    simp [numToString, fracToString]
  simp only [octetOk] at hok
  rw [hpi, hnum] at hok
  simp only [numGeInt, numLeInt, Bool.and_eq_true, decide_eq_true_eq] at hok
  obtain ⟨⟨hge, hle⟩, heqs⟩ := hok
  have h255 : digitsVal (c :: rest) ≤ 255 := by
    have hc : ((digitsVal (c :: rest) : Int)) ≤ 255 := by
      simpa using hle
    exact_mod_cast hc
  have heq : String.mk (c :: rest) = Nat.repr (digitsVal (c :: rest)) := by
    rw [int_repr_ofNat] at heqs
    exact eq_of_beq heqs
  refine ⟨h255, heq, ?_⟩
  rw [heq]
  exact repr_no_leading_zero _ (Nat.lt_of_le_of_lt h255 (by decide))

/-- C9: `isIpv4` at the claimed concrete inputs, plus the necessary
conditions for acceptance: an accepted value is a string matching the
dotted-quad pattern whose every octet is at most 255, is the
canonical decimal rendering of its numeric value, and hence carries
no leading zero. -/
theorem ipv4_octet_checking :
    isIpv4.call (JSValue.str "01.1.1.1") = false
    ∧ isIpv4.call (JSValue.str "255.255.255.255") = true
    ∧ isIpv4.call (JSValue.str "256.1.1.1") = false
    ∧ (∀ v, isIpv4.call v = true →
        ∃ s groups, v = JSValue.str s ∧ ipv4MatchGroups s = some groups
          ∧ ∀ o ∈ groups, digitsVal o.data ≤ 255 ∧ o = Nat.repr (digitsVal o.data)
            ∧ hasLeadingZero o = false) := by
  refine ⟨by decide, by decide, by decide, ?_⟩
  intro v h
  obtain ⟨s, hs⟩ : ∃ s, v = JSValue.str s := by
    cases v
    case str s => exact ⟨s, rfl⟩
    all_goals exact absurd h (by simp [isIpv4, Guard.call, createTypeGuard])
  subst hs
  simp only [isIpv4, Guard.call, createTypeGuard] at h
  split at h
  · simp at h
  · cases hm : ipv4MatchGroups s with
    | none => rw [hm] at h; simp at h
    | some groups =>
      rw [hm] at h
      rw [show (match some groups with
          | some gs => if gs.all octetOk then some (JSValue.str s) else none
          | none => (none : Option JSValue)) = if groups.all octetOk then some (JSValue.str s) else none from rfl,
        isSome_boolIf] at h
      have hm2 := hm
      simp only [ipv4MatchGroups] at hm2
      split at hm2
      · next hcond =>
        rw [Bool.and_eq_true] at hcond
        obtain ⟨hlen4, hallp⟩ := hcond
        injection hm2 with hpg
        refine ⟨s, groups, rfl, hm, ?_⟩
        intro o ho
        have hmem : o ∈ (splitOnChar '.' s.data).map String.mk := by rw [hpg]; exact ho
        have hp := List.all_eq_true.mp hallp o hmem
        simp only [Bool.and_eq_true, decide_eq_true_eq] at hp
        obtain ⟨⟨hl1, _⟩, hdig⟩ := hp
        have hok := List.all_eq_true.mp h o ho
        cases hdata : o.data with
        | nil =>
          exfalso
          have hlen : o.length = o.data.length := rfl
          rw [hlen, hdata] at hl1
          exact absurd hl1 (by simp)
        | cons c rest =>
          have ho_eq : o = String.mk (c :: rest) := by rw [← hdata]
          rw [hdata] at hdig
          rw [ho_eq] at hok
          have hres := octetOk_canonical c rest hdig hok
          rw [ho_eq]
          exact hres
      · exact absurd hm2 (by simp)

/-- Witness for C9's acceptance implication, instantiated at the
accepted address `"255.255.255.255"`. -/
theorem ipv4_octet_checking_witness :
    ∃ s groups, JSValue.str "255.255.255.255" = JSValue.str s
      ∧ ipv4MatchGroups s = some groups
      ∧ ∀ o ∈ groups, digitsVal o.data ≤ 255 ∧ o = Nat.repr (digitsVal o.data)
        ∧ hasLeadingZero o = false :=
  ipv4_octet_checking.2.2.2 (JSValue.str "255.255.255.255") (by decide)

/-- Witness for C5 at a concrete input: `undefined` passes
`isString.optional`. -/
theorem optional_law_witness : isString.optional JSValue.undef = true :=
  (optional_law isString JSValue.undef).mpr (Or.inl rfl)

/-- Witness for C4 at a concrete input: the empty string is empty. -/
theorem notEmpty_law_witness : isEmpty.call (JSValue.str "") = true :=
  (notEmpty_law isString (JSValue.str "")).2.mpr (Or.inr (Or.inr (Or.inl rfl)))

/-- Witness for C10 at a concrete input: the zero-key object without
the plain prototype is not empty and `notEmpty` agrees with the plain
guard there. -/
theorem emptyRecord_prototype_edge_witness :
    isEmpty.call (JSValue.obj [] false) = false
    ∧ isString.notEmpty (JSValue.obj [] false) = isString.call (JSValue.obj [] false) :=
  ⟨(emptyRecord_prototype_edge isString []).1, (emptyRecord_prototype_edge isString []).2.1⟩

/-- Witness for C8 at a concrete input: the batch-built guard accepts
the literal string `"meatball"`. -/
theorem batch_naming_witness :
    (createTypeGuard meatballParse).call (JSValue.str "meatball") = true :=
  (batch_naming.2.2.2.2.2 (JSValue.str "meatball")).mpr rfl

/-- Witness for C7's amended statement at a concrete registry. -/
theorem extend_registry_merge_witness :
    recLookup (extend (some [("A", createTypeGuard rejectAllParse)]) []) "A"
      = some (createTypeGuard rejectAllParse) := by
  have h := (extend_registry_merge [("A", createTypeGuard rejectAllParse)] [] "A").1
  simpa [recLookup] using h
